import Mathlib

/-!
Verification of the PDF-to-Markdown conversion core (src/main.py).

The Document Reader (PyMuPDF) is external: it is modelled by the structured
page data it hands to the converter.  Every definition below is a direct
translation of the corresponding Python in src/main.py; machine floats
(font sizes) are modelled by rationals, Python string operations by the
matching Lean String operations, and the per-image try/except by Option.
-/

namespace PdfToMd

/-- A text run as delivered by the reader: the fields of one span of
`page.get_text("dict")` that the converter reads (text, size, flags).
The reader always supplies these keys, so the Python defaults
(`""`, `12`, `0`) for absent keys never fire and are not modelled. -/
structure Span where
  text : String
  size : ℚ
  flags : Nat
deriving Repr, DecidableEq

/-- A line of a text block: an ordered list of spans. -/
structure Line where
  spans : List Span
deriving Repr, DecidableEq

/-- A content block of a page: a text block (type 0 in the reader dict,
carrying its lines) or any other block type, which the converter skips. -/
inductive Block where
  | text (lines : List Line)
  | other
deriving Repr, DecidableEq

/-- One image reference of a page, as enumerated by `page.get_images`.
`resolve` models the external call `page.parent.extract_image(xref)`:
`some (bytes, ext)` on success, `none` when that call raises. -/
structure ImageRef where
  resolve : Option (List Nat × String)
deriving Repr, DecidableEq

/-- A page: its content blocks and its image references, in reader order. -/
structure Page where
  blocks : List Block
  images : List ImageRef
deriving Repr, DecidableEq

/-- A successfully opened document: its pages in order. -/
structure Document where
  pages : List Page
deriving Repr, DecidableEq

/-- One entry of the image list built by `extract_images_as_base64`
(src/main.py lines 125-130). -/
structure ImageDescriptor where
  page : Nat
  index : Nat
  format : String
  base64 : String
deriving Repr, DecidableEq

/-- The value returned by `convert_pdf_to_markdown`: the markdown text and,
only when the images key is present in the Python dict, the image list
(`none` models an absent key). -/
structure ConversionResult where
  markdown : String
  images : Option (List ImageDescriptor)
deriving Repr, DecidableEq

/-- The HTTPException raised when the reader refuses the input bytes
(src/main.py lines 159-163). -/
structure HTTPError where
  status_code : Nat
  detail : String
deriving Repr, DecidableEq

/-- Span formatting, from the inner span loop of
`extract_text_with_formatting` (src/main.py lines 59-78): bold when flag
bit 16 is set, italic when flag bit 2 is set, Python truthiness of the
masked integers. -/
def spanFormat (text : String) (flags : Nat) : String :=
  let is_bold := flags &&& 16
  let is_italic := flags &&& 2
  if is_bold ≠ 0 ∧ is_italic ≠ 0 then "***" ++ text ++ "***"
  else if is_bold ≠ 0 then "**" ++ text ++ "**"
  else if is_italic ≠ 0 then "*" ++ text ++ "*"
  else text

/-- The Python `str.strip()` used on line text (src/main.py lines 80-81):
drop whitespace characters from both ends of the string. -/
def pyStrip (s : String) : String :=
  String.mk (((s.data.dropWhile Char.isWhitespace).reverse.dropWhile
    Char.isWhitespace).reverse)

/-- One step of the span loop: extend the accumulated line text with the
formatted span and update the running maximum font size
(src/main.py lines 59-78; `max_font_size = max(max_font_size, font_size)`). -/
def processSpan (acc : String × ℚ) (s : Span) : String × ℚ :=
  (acc.1 ++ spanFormat s.text s.flags, max acc.2 s.size)

/-- The span loop over one line, started from `("", 0)` exactly as
`line_text = ""` and `max_font_size = 0` (src/main.py lines 56-57). -/
def renderLine (l : Line) : String × ℚ :=
  l.spans.foldl processSpan ("", 0)

/-- One step of the line loop (src/main.py lines 80-81): keep the trimmed
line text and its maximum font size, dropping whitespace-only lines. -/
def processLine (acc : List (String × ℚ)) (l : Line) : List (String × ℚ) :=
  let r := renderLine l
  if pyStrip r.1 = "" then acc else acc ++ [(pyStrip r.1, r.2)]

/-- The `block_text` list built for a text block (src/main.py lines 54-81). -/
def blockLines (lines : List Line) : List (String × ℚ) :=
  lines.foldl processLine []

/-- The `combined_text` of a block (src/main.py line 86). -/
def blockCombined (bt : List (String × ℚ)) : String :=
  String.intercalate " " (bt.map Prod.fst)

/-- The `avg_font_size` of a block (src/main.py line 85). -/
def blockAvg (bt : List (String × ℚ)) : ℚ :=
  (bt.map Prod.snd).sum / (bt.length : ℚ)

/-- Rendering of one block (src/main.py lines 52-96): non-text blocks and
blocks with no surviving line produce nothing; otherwise the heading
heuristic on the average font size picks the output form. -/
def renderBlock : Block → Option String
  | Block.other => none
  | Block.text lines =>
    let block_text := blockLines lines
    if block_text.isEmpty then none
    else
      let avg_font_size := blockAvg block_text
      let combined_text := blockCombined block_text
      if 18 < avg_font_size then some ("# " ++ combined_text)
      else if 14 < avg_font_size then some ("## " ++ combined_text)
      else if 12 < avg_font_size then some ("### " ++ combined_text)
      else some combined_text

/-- Page text extraction (src/main.py lines 36-98): the rendered blocks,
joined with a blank line. -/
def extract_text_with_formatting (page : Page) : String :=
  String.intercalate "\n\n" (page.blocks.filterMap renderBlock)

/-- The standard base64 alphabet. -/
def base64Table : String :=
  "ABCDEFGHIJKLMNOPQRSTUVWXYZabcdefghijklmnopqrstuvwxyz0123456789+/"

/-- The base64 digit for a 6-bit value. -/
def b64digit (n : Nat) : Char :=
  base64Table.toList.getD n 'A'

/-- Standard base64 of a byte list, 3 bytes to 4 digits with `=` padding:
the `base64.b64encode(...)` call of src/main.py line 123. -/
def b64chars : List Nat → List Char
  | [] => []
  | [a] =>
    let n := a * 65536
    [b64digit (n / 262144 % 64), b64digit (n / 4096 % 64), '=', '=']
  | [a, b] =>
    let n := a * 65536 + b * 256
    [b64digit (n / 262144 % 64), b64digit (n / 4096 % 64),
     b64digit (n / 64 % 64), '=']
  | a :: b :: c :: rest =>
    let n := a * 65536 + b * 256 + c
    b64digit (n / 262144 % 64) :: b64digit (n / 4096 % 64) ::
      b64digit (n / 64 % 64) :: b64digit (n % 64) :: b64chars rest

/-- The base64 payload string (`.decode("utf-8")` of src/main.py line 123). -/
def b64encode (bytes : List Nat) : String :=
  String.mk (b64chars bytes)

/-- The image loop of `extract_images_as_base64` (src/main.py lines 115-133):
`img_index` counts every reference, extracted or not; a reference whose
extraction raises is skipped and the loop continues. -/
def imagesLoop (page_number : Nat) (img_index : Nat) :
    List ImageRef → List ImageDescriptor
  | [] => []
  | ref :: rest =>
    match ref.resolve with
    | some (image_bytes, image_ext) =>
      { page := page_number, index := img_index, format := image_ext,
        base64 := b64encode image_bytes } :: imagesLoop page_number (img_index + 1) rest
    | none => imagesLoop page_number (img_index + 1) rest

/-- Image extraction for one page (src/main.py lines 101-135). -/
def extract_images_as_base64 (page : Page) (page_number : Nat) :
    List ImageDescriptor :=
  imagesLoop page_number 0 page.images

/-- The separator pushed before page `page_number` (0-based, positive)
of a multi-page document (src/main.py line 173). -/
def pageSep (page_number : Nat) : String :=
  "\n---\n\n*Page " ++ toString (page_number + 1) ++ "*\n"

/-- The markdown fragment embedding one extracted image
(src/main.py line 183). -/
def imageFragment (img : ImageDescriptor) : String :=
  "\n\n![Image " ++ toString (img.index + 1) ++ " from page " ++
    toString img.page ++ "](data:image/" ++ img.format ++ ";base64," ++
    img.base64 ++ ")\n"

/-- The page loop of `convert_pdf_to_markdown` (src/main.py lines 168-188),
run from page index `page_number`: returns the `markdown_pages` list and the
`all_images` list contributed from this point on.  Per page: push the
separator when the index is positive, render the page text, then under
`include_images` either embed every extracted image into the page markdown
(when `embed_images` and the page extracted at least one image) or add the
extracted descriptors to `all_images`. -/
def convertLoop (include_images embed_images : Bool) :
    Nat → List Page → List String × List ImageDescriptor
  | _, [] => ([], [])
  | page_number, page :: rest =>
    let seps : List String :=
      if 0 < page_number then [pageSep page_number] else []
    let page_markdown := extract_text_with_formatting page
    let step : String × List ImageDescriptor :=
      if include_images then
        let page_images := extract_images_as_base64 page (page_number + 1)
        if embed_images && !page_images.isEmpty then
          (page_images.foldl (fun md img => md ++ imageFragment img) page_markdown, [])
        else
          (page_markdown, page_images)
      else (page_markdown, [])
    let next := convertLoop include_images embed_images (page_number + 1) rest
    (seps ++ step.1 :: next.1, step.2 ++ next.2)

/-- Conversion of a successfully opened document
(src/main.py lines 165-199): the joined markdown and, exactly when images
were requested and not embedded, the accumulated image list. -/
def convert_pdf_to_markdown (doc : Document)
    (include_images embed_images : Bool) : ConversionResult :=
  let r := convertLoop include_images embed_images 0 doc.pages
  { markdown := String.intercalate "\n\n" r.1,
    images := if include_images && !embed_images then some r.2 else none }

/-- The whole conversion entry point (src/main.py lines 138-199).  The
external `fitz.open` call is modelled by its outcome: `Except.error cause`
when the reader refuses the bytes (the raised exception message), otherwise
the structured document it produced. -/
def convert (openResult : Except String Document)
    (include_images embed_images : Bool) : Except HTTPError ConversionResult :=
  match openResult with
  | Except.error cause =>
    Except.error { status_code := 400, detail := "Failed to parse PDF: " ++ cause }
  | Except.ok doc =>
    Except.ok (convert_pdf_to_markdown doc include_images embed_images)

/-- The text part of the markdown one page contributes, as built by
src/main.py lines 175-184: the extracted page text, with every extracted
image appended when embedding is requested and at least one image was
extracted. -/
def pageBody (include_images embed_images : Bool) (page : Page)
    (page_number : Nat) : String :=
  let page_markdown := extract_text_with_formatting page
  if include_images then
    let page_images := extract_images_as_base64 page (page_number + 1)
    if embed_images && !page_images.isEmpty then
      page_images.foldl (fun md img => md ++ imageFragment img) page_markdown
    else page_markdown
  else page_markdown

/-- The descriptors one page contributes to `all_images`, as decided by
src/main.py lines 177-186: the extracted images, except when they were
embedded into the markdown instead or images were not requested. -/
def pageContrib (include_images embed_images : Bool) (page : Page)
    (page_number : Nat) : List ImageDescriptor :=
  if include_images then
    let page_images := extract_images_as_base64 page (page_number + 1)
    if embed_images && !page_images.isEmpty then [] else page_images
  else []

/-- A document as the page loop actually consumes it: materializing the
content of page `i` (`pdf_document[page_number]` on line 169 and the
`page.get_text` and `page.get_images` reader calls behind lines 175 and
178 of src/main.py) is an external call that can itself raise.
`Except.error msg` models a page whose content retrieval raises; no
handler in `convert_pdf_to_markdown` catches such an exception. -/
structure FallibleDoc where
  pages : List (Except String Page)

/-- Outcome of one full run of the conversion endpoint body, exceptions
included: a normal result, the HTTPException raised for unparseable input,
or an exception that escaped uncaught. -/
inductive RunOutcome where
  | ok (result : ConversionResult)
  | httpError (e : HTTPError)
  | uncaught (msg : String)
deriving Repr, DecidableEq

/-- The page loop over fallible pages: an exception while materializing a
page propagates immediately and discards the partial lists. -/
def convertTracedLoop (include_images embed_images : Bool) :
    Nat → List (Except String Page) →
      Except String (List String × List ImageDescriptor)
  | _, [] => Except.ok ([], [])
  | _, Except.error msg :: _ => Except.error msg
  | page_number, Except.ok page :: rest =>
    let seps : List String :=
      if 0 < page_number then [pageSep page_number] else []
    let page_markdown := extract_text_with_formatting page
    let step : String × List ImageDescriptor :=
      if include_images then
        let page_images := extract_images_as_base64 page (page_number + 1)
        if embed_images && !page_images.isEmpty then
          (page_images.foldl (fun md img => md ++ imageFragment img) page_markdown, [])
        else
          (page_markdown, page_images)
      else (page_markdown, [])
    match convertTracedLoop include_images embed_images (page_number + 1) rest with
    | Except.error msg => Except.error msg
    | Except.ok next => Except.ok (seps ++ step.1 :: next.1, step.2 ++ next.2)

/-- The full run of src/main.py lines 157-199 together with the number of
`pdf_document.close()` calls it performs.  Line 190 is the only close call
in the source; it is guarded by neither try/finally nor a with-block, so
it runs exactly when the page loop finishes without raising. -/
def convertRun (openResult : Except String FallibleDoc)
    (include_images embed_images : Bool) : RunOutcome × Nat :=
  match openResult with
  | Except.error cause =>
    (RunOutcome.httpError { status_code := 400,
                            detail := "Failed to parse PDF: " ++ cause }, 0)
  | Except.ok doc =>
    match convertTracedLoop include_images embed_images 0 doc.pages with
    | Except.error msg => (RunOutcome.uncaught msg, 0)
    | Except.ok r =>
      (RunOutcome.ok { markdown := String.intercalate "\n\n" r.1,
                       images := if include_images && !embed_images
                                 then some r.2 else none }, 1)

/-- A one-line, 15pt block used as concrete witness input. -/
def wTitleLines : List Line :=
  [{ spans := [{ text := "Title", size := 15, flags := 0 }] }]

/-- A two-span line used as concrete witness input. -/
def wLine : Line :=
  { spans := [{ text := "Hello", size := 20, flags := 0 },
              { text := " world", size := 10, flags := 16 }] }

lemma and_two_pow_ne (flags i : Nat) :
    flags &&& 2 ^ i ≠ 0 ↔ flags.testBit i = true := by
  rw [Nat.and_two_pow]
  cases h : flags.testBit i
  · simp
  · simp [(Nat.two_pow_pos i).ne']

lemma strFoldlAppend (l : List String) (a : String) :
    l.foldl (fun r t => r ++ t) a = a ++ l.foldl (fun r t => r ++ t) "" := by
  induction l generalizing a with
  | nil => simp
  | cons x xs ih =>
    rw [List.foldl_cons, List.foldl_cons, ih (a ++ x), ih ("" ++ x),
      String.empty_append, String.append_assoc]

lemma strJoin_nil : String.join [] = "" := rfl

lemma strJoin_cons (s : String) (l : List String) :
    String.join (s :: l) = s ++ String.join l := by
  simp only [String.join, List.foldl_cons, String.empty_append]
  exact strFoldlAppend l s

lemma append_right_ne {a b : String} (c : String) (h : a.length ≠ b.length) :
    a ++ c ≠ b ++ c := by
  intro he
  apply h
  have hl := congrArg String.length he
  rw [String.length_append, String.length_append] at hl
  omega

lemma prepend_ne_self {p : String} (c : String) (h : p.length ≠ 0) :
    p ++ c ≠ c := by
  intro he
  apply h
  have hl := congrArg String.length he
  rw [String.length_append] at hl
  omega

lemma foldl_processSpan_fst (spans : List Span) (acc : String × ℚ) :
    (spans.foldl processSpan acc).1
      = acc.1 ++ String.join (spans.map fun s => spanFormat s.text s.flags) := by
  induction spans generalizing acc with
  | nil => simp [strJoin_nil]
  | cons s ss ih =>
    rw [List.foldl_cons, ih, List.map_cons, strJoin_cons, ← String.append_assoc]
    rfl

lemma foldl_processSpan_snd (spans : List Span) (acc : String × ℚ) :
    (spans.foldl processSpan acc).2 = (spans.map Span.size).foldl max acc.2 := by
  induction spans generalizing acc with
  | nil => rfl
  | cons s ss ih =>
    rw [List.foldl_cons, ih, List.map_cons, List.foldl_cons]
    rfl

lemma le_foldl_max (l : List ℚ) (a : ℚ) : a ≤ l.foldl max a := by
  induction l generalizing a with
  | nil => exact le_refl a
  | cons x xs ih => exact le_trans (le_max_left a x) (ih (max a x))

lemma mem_le_foldl_max (l : List ℚ) (a : ℚ) : ∀ x ∈ l, x ≤ l.foldl max a := by
  induction l generalizing a with
  | nil => intro x hx; cases hx
  | cons y ys ih =>
    intro x hx
    rcases List.mem_cons.mp hx with rfl | hx
    · exact le_trans (le_max_right a x) (le_foldl_max ys (max a x))
    · exact ih (max a y) x hx

lemma foldl_max_eq_or_mem (l : List ℚ) (a : ℚ) :
    l.foldl max a = a ∨ l.foldl max a ∈ l := by
  induction l generalizing a with
  | nil => exact Or.inl rfl
  | cons x xs ih =>
    rw [List.foldl_cons]
    rcases ih (max a x) with h | h
    · rcases max_choice a x with hm | hm
      · exact Or.inl (by rw [h, hm])
      · exact Or.inr (by rw [h, hm]; exact List.mem_cons_self x xs)
    · exact Or.inr (List.mem_cons_of_mem x h)

lemma foldl_processLine (lines : List Line) (acc : List (String × ℚ)) :
    lines.foldl processLine acc
      = acc ++ lines.filterMap (fun l =>
          if pyStrip (renderLine l).1 = "" then none
          else some (pyStrip (renderLine l).1, (renderLine l).2)) := by
  induction lines generalizing acc with
  | nil => simp
  | cons l ls ih =>
    rw [List.foldl_cons, ih, List.filterMap_cons]
    by_cases h : pyStrip (renderLine l).1 = ""
    · simp [processLine, h]
    · simp [processLine, h, List.append_assoc]

lemma imagesLoop_eq (n : Nat) (refs : List ImageRef) (i : Nat) :
    imagesLoop n i refs
      = (refs.enumFrom i).filterMap (fun ir =>
          ir.2.resolve.map fun be =>
            { page := n, index := ir.1, format := be.2,
              base64 := b64encode be.1 }) := by
  induction refs generalizing i with
  | nil => rfl
  | cons r rs ih =>
    rw [List.enumFrom_cons, List.filterMap_cons]
    cases h : r.resolve with
    | none => simp [imagesLoop, h, ih]
    | some be =>
      obtain ⟨bs, ext⟩ := be
      simp [imagesLoop, h, ih]

lemma imagesLoop_page (n : Nat) (refs : List ImageRef) (i : Nat) :
    ∀ d ∈ imagesLoop n i refs, d.page = n := by
  induction refs generalizing i with
  | nil => intro d hd; cases hd
  | cons r rs ih =>
    intro d hd
    cases h : r.resolve with
    | none =>
      rw [imagesLoop, h] at hd
      exact ih (i + 1) d hd
    | some be =>
      obtain ⟨bs, ext⟩ := be
      rw [imagesLoop, h] at hd
      rcases List.mem_cons.mp hd with rfl | hd
      · rfl
      · exact ih (i + 1) d hd

lemma foldl_imageFragment (l : List ImageDescriptor) (base : String) :
    l.foldl (fun md img => md ++ imageFragment img) base
      = base ++ String.join (l.map imageFragment) := by
  induction l generalizing base with
  | nil => simp [strJoin_nil]
  | cons x xs ih =>
    rw [List.foldl_cons, ih, List.map_cons, strJoin_cons, ← String.append_assoc]

lemma convertLoop_cons (inc emb : Bool) (p : Page) (rest : List Page) (i : Nat) :
    convertLoop inc emb i (p :: rest)
      = ((if 0 < i then [pageSep i] else [])
            ++ pageBody inc emb p i :: (convertLoop inc emb (i + 1) rest).1,
         pageContrib inc emb p i ++ (convertLoop inc emb (i + 1) rest).2) := by
  by_cases h : extract_images_as_base64 p (i + 1) = [] <;>
    cases inc <;> cases emb <;>
    simp [convertLoop, pageBody, pageContrib, h]

lemma convertLoop_eq (inc emb : Bool) (ps : List Page) (i : Nat) :
    convertLoop inc emb i ps
      = ((ps.enumFrom i).flatMap (fun ip =>
            (if 0 < ip.1 then [pageSep ip.1] else [])
            ++ [pageBody inc emb ip.2 ip.1]),
         (ps.enumFrom i).flatMap (fun ip => pageContrib inc emb ip.2 ip.1)) := by
  induction ps generalizing i with
  | nil => rfl
  | cons p rest ih =>
    rw [convertLoop_cons, ih (i + 1), List.enumFrom_cons, List.flatMap_cons,
      List.flatMap_cons]
    simp

lemma pageBody_not_inc (emb : Bool) (p : Page) (i : Nat) :
    pageBody false emb p i = extract_text_with_formatting p := rfl

lemma pageBody_inc_noembed (p : Page) (i : Nat) :
    pageBody true false p i = extract_text_with_formatting p := by
  simp [pageBody]

lemma pageBody_embed (p : Page) (i : Nat) :
    pageBody true true p i
      = extract_text_with_formatting p
        ++ String.join ((extract_images_as_base64 p (i + 1)).map imageFragment) := by
  by_cases h : (extract_images_as_base64 p (i + 1)).isEmpty
  · have he : extract_images_as_base64 p (i + 1) = [] := by
      simpa using h
    simp [pageBody, he, strJoin_nil]
  · simp [pageBody, h, foldl_imageFragment]

lemma pageContrib_not_inc (emb : Bool) (p : Page) (i : Nat) :
    pageContrib false emb p i = [] := rfl

lemma pageContrib_inc_noembed (p : Page) (i : Nat) :
    pageContrib true false p i = extract_images_as_base64 p (i + 1) := by
  simp [pageContrib]

lemma convertLoop_fst_length_pos (inc emb : Bool) (ps : List Page) :
    ∀ i, 0 < i → (convertLoop inc emb i ps).1.length = 2 * ps.length := by
  induction ps with
  | nil => intro i _; rfl
  | cons p rest ih =>
    intro i hi
    rw [convertLoop_cons, if_pos hi]
    simp only [List.length_append, List.length_cons, List.length_nil,
      ih (i + 1) (Nat.succ_pos i)]
    omega

lemma renderBlock_text (lines : List Line) :
    renderBlock (Block.text lines)
      = if (blockLines lines).isEmpty then none
        else if 18 < blockAvg (blockLines lines) then
          some ("# " ++ blockCombined (blockLines lines))
        else if 14 < blockAvg (blockLines lines) then
          some ("## " ++ blockCombined (blockLines lines))
        else if 12 < blockAvg (blockLines lines) then
          some ("### " ++ blockCombined (blockLines lines))
        else some (blockCombined (blockLines lines)) := rfl

/-- C3: a span renders as its text wrapped in `***` on both sides when the
bold flag (bit 4) and the italic flag (bit 1) are both set, in `**` when
bold only, in `*` when italic only, and unchanged (empty wrapper) when
neither is set; the source text appears verbatim between the wrappers, so
no Markdown-special character in it is escaped. -/
theorem claim_C3 (text : String) (flags : Nat) :
    spanFormat text flags
      = (if flags.testBit 4 && flags.testBit 1 then "***"
         else if flags.testBit 4 then "**"
         else if flags.testBit 1 then "*" else "")
        ++ text ++
        (if flags.testBit 4 && flags.testBit 1 then "***"
         else if flags.testBit 4 then "**"
         else if flags.testBit 1 then "*" else "") := by
  have h16 : flags &&& 16 ≠ 0 ↔ flags.testBit 4 = true := by
    have h := and_two_pow_ne flags 4
    norm_num at h
    exact h
  have h2 : flags &&& 2 ≠ 0 ↔ flags.testBit 1 = true := by
    have h := and_two_pow_ne flags 1
    norm_num at h
    exact h
  by_cases hb : flags.testBit 4 = true <;> by_cases hi : flags.testBit 1 = true <;>
    simp [spanFormat, h16, h2, hb, hi]

/-- C6: when the reader refuses the input bytes, the conversion aborts at
once with a status-400 parse failure whose detail carries the underlying
cause, and returns no markdown or image data; on any successfully opened
document the conversion always returns a result, so no other failure
aborts it. -/
theorem claim_C6 (cause : String) (inc emb : Bool) :
    (convert (Except.error cause) inc emb
      = Except.error { status_code := 400,
                       detail := "Failed to parse PDF: " ++ cause })
  ∧ ∀ doc : Document, ∃ r, convert (Except.ok doc) inc emb = Except.ok r :=
  ⟨rfl, fun _ => ⟨_, rfl⟩⟩

/-- C7: image extraction for a page keeps exactly the references whose
retrieval succeeds, in encounter order, each descriptor carrying the
display page number it was called with, the 0-based position of the
reference within the page, the format string, and the base64 payload;
a failed retrieval is skipped silently, and a conversion on any opened
document always returns a result, so per-image failures never abort it. -/
theorem claim_C7 (page : Page) (n : Nat) :
    (extract_images_as_base64 page n
      = page.images.enum.filterMap fun ir =>
          ir.2.resolve.map fun be =>
            { page := n, index := ir.1, format := be.2,
              base64 := b64encode be.1 })
  ∧ (∀ d ∈ extract_images_as_base64 page n, d.page = n)
  ∧ (∀ (doc : Document) (inc emb : Bool), ∃ r,
      convert (Except.ok doc) inc emb = Except.ok r) :=
  ⟨imagesLoop_eq n page.images 0, imagesLoop_page n page.images 0,
   fun _ _ _ => ⟨_, rfl⟩⟩

/-- C10: converting a successfully opened document with zero pages yields
an empty markdown string and an empty or absent image list, for every
combination of the two flags. -/
theorem claim_C10 (inc emb : Bool) :
    (convert_pdf_to_markdown { pages := [] } inc emb).markdown = ""
  ∧ ((convert_pdf_to_markdown { pages := [] } inc emb).images = none
      ∨ (convert_pdf_to_markdown { pages := [] } inc emb).images = some []) := by
  cases inc <;> cases emb
  · exact ⟨rfl, Or.inl rfl⟩
  · exact ⟨rfl, Or.inl rfl⟩
  · exact ⟨rfl, Or.inr rfl⟩
  · exact ⟨rfl, Or.inl rfl⟩

/-- C4: with images not requested the result carries no image list at all;
with images requested but not embedded the markdown is identical to the
markdown of an image-free conversion (hence embeds no data URI) and the
image list is exactly the per-page extracted descriptors concatenated in
page order, each page list in in-page index order; with embedding
requested the image list is absent. -/
theorem claim_C4 (doc : Document) :
    (∀ emb, (convert_pdf_to_markdown doc false emb).images = none)
  ∧ ((convert_pdf_to_markdown doc true false).markdown
      = (convert_pdf_to_markdown doc false false).markdown)
  ∧ ((convert_pdf_to_markdown doc true false).images
      = some (doc.pages.enum.flatMap fun ip =>
          extract_images_as_base64 ip.2 (ip.1 + 1)))
  ∧ ((convert_pdf_to_markdown doc true true).images = none) := by
  refine ⟨fun _ => rfl, ?_, ?_, rfl⟩
  · show String.intercalate "\n\n" (convertLoop true false 0 doc.pages).1
      = String.intercalate "\n\n" (convertLoop false false 0 doc.pages).1
    simp only [convertLoop_eq, pageBody_inc_noembed, pageBody_not_inc]
  · show (if true && !false then some (convertLoop true false 0 doc.pages).2
          else none) = _
    simp only [convertLoop_eq, pageContrib_inc_noembed, Bool.not_false,
      Bool.and_true, if_true]
    rfl

/-- C5: with images requested and embedded, every page contributes its
extracted text followed by one fragment per successfully extracted image,
in extraction order; the fragment is exactly the data-URI image reference
with 1-based image number and the 1-based display page number the page was
extracted under. -/
theorem claim_C5 (doc : Document) :
    ((convertLoop true true 0 doc.pages).1
      = doc.pages.enum.flatMap fun ip =>
          (if 0 < ip.1 then [pageSep ip.1] else [])
          ++ [extract_text_with_formatting ip.2
              ++ String.join ((extract_images_as_base64 ip.2 (ip.1 + 1)).map
                    imageFragment)])
  ∧ (∀ img : ImageDescriptor,
      imageFragment img
        = "\n\n![Image " ++ toString (img.index + 1) ++ " from page "
          ++ toString img.page ++ "](data:image/" ++ img.format
          ++ ";base64," ++ img.base64 ++ ")\n")
  ∧ (∀ (p : Page) (n : Nat), ∀ img ∈ extract_images_as_base64 p n,
      img.page = n) := by
  refine ⟨?_, fun _ => rfl, fun p n => imagesLoop_page n p.images 0⟩
  simp only [convertLoop_eq, pageBody_embed]
  rfl

/-- C8: the markdown of every conversion is the `markdown_pages` sequence
joined with a blank line; that sequence is, page by page, an optional
separator fragment (exactly the horizontal rule with the 1-based page
caption, present only for page indices above 0) followed by the rendered
page text, so a document of N pages carries exactly N-1 separators and
none before page 1. -/
theorem claim_C8 (doc : Document) (inc emb : Bool) :
    ((convert_pdf_to_markdown doc inc emb).markdown
      = String.intercalate "\n\n" (convertLoop inc emb 0 doc.pages).1)
  ∧ ((convertLoop inc emb 0 doc.pages).1
      = doc.pages.enum.flatMap fun ip =>
          (if 0 < ip.1 then [pageSep ip.1] else [])
          ++ [pageBody inc emb ip.2 ip.1])
  ∧ (∀ i, pageSep i = "\n---\n\n*Page " ++ toString (i + 1) ++ "*\n")
  ∧ ((convertLoop inc emb 0 doc.pages).1.length = 2 * doc.pages.length - 1) := by
  obtain ⟨ps⟩ := doc
  refine ⟨rfl, ?_, fun _ => rfl, ?_⟩
  · rw [convertLoop_eq]
    rfl
  · cases ps with
    | nil => rfl
    | cons p rest =>
      rw [convertLoop_cons, if_neg (lt_irrefl 0)]
      simp only [List.nil_append, List.length_cons,
        convertLoop_fst_length_pos inc emb rest 1 Nat.one_pos]
      omega

/-- C1: a text block that produces output renders as a level-1 heading
exactly when the average representative font size of its surviving lines
exceeds 18, level 2 exactly when it lies in (14, 18], level 3 exactly when
it lies in (12, 14], and as the unmodified combined text exactly when it is
at most 12 — so the boundary values 12, 14 and 18 all fall on the
non-promoting side. -/
theorem claim_C1 (lines : List Line) (out : String)
    (h : renderBlock (Block.text lines) = some out) :
    ((out = "# " ++ blockCombined (blockLines lines))
        ↔ 18 < blockAvg (blockLines lines))
  ∧ ((out = "## " ++ blockCombined (blockLines lines))
        ↔ (14 < blockAvg (blockLines lines) ∧ blockAvg (blockLines lines) ≤ 18))
  ∧ ((out = "### " ++ blockCombined (blockLines lines))
        ↔ (12 < blockAvg (blockLines lines) ∧ blockAvg (blockLines lines) ≤ 14))
  ∧ ((out = blockCombined (blockLines lines))
        ↔ blockAvg (blockLines lines) ≤ 12) := by
  rw [renderBlock_text] at h
  by_cases hbt : (blockLines lines).isEmpty = true
  · rw [if_pos hbt] at h
    exact Option.noConfusion h
  rw [if_neg hbt] at h
  by_cases h18 : 18 < blockAvg (blockLines lines)
  · rw [if_pos h18] at h
    obtain rfl : out = _ := (Option.some.inj h).symm
    refine ⟨iff_of_true rfl h18, iff_of_false ?_ ?_, iff_of_false ?_ ?_,
      iff_of_false ?_ ?_⟩
    · exact append_right_ne _ (by decide)
    · rintro ⟨-, hle⟩
      exact absurd h18 (not_lt.mpr hle)
    · exact append_right_ne _ (by decide)
    · rintro ⟨-, hle⟩
      exact absurd h18 (not_lt.mpr (hle.trans (by norm_num)))
    · exact prepend_ne_self _ (by decide)
    · intro hle
      exact absurd h18 (not_lt.mpr (hle.trans (by norm_num)))
  rw [if_neg h18] at h
  by_cases h14 : 14 < blockAvg (blockLines lines)
  · rw [if_pos h14] at h
    obtain rfl : out = _ := (Option.some.inj h).symm
    refine ⟨iff_of_false (append_right_ne _ (by decide)) h18,
      iff_of_true rfl ⟨h14, not_lt.mp h18⟩,
      iff_of_false (append_right_ne _ (by decide)) ?_,
      iff_of_false (prepend_ne_self _ (by decide)) ?_⟩
    · rintro ⟨-, hle⟩
      exact absurd h14 (not_lt.mpr hle)
    · intro hle
      exact absurd h14 (not_lt.mpr (hle.trans (by norm_num)))
  rw [if_neg h14] at h
  by_cases h12 : 12 < blockAvg (blockLines lines)
  · rw [if_pos h12] at h
    obtain rfl : out = _ := (Option.some.inj h).symm
    refine ⟨iff_of_false (append_right_ne _ (by decide)) h18,
      iff_of_false (append_right_ne _ (by decide)) ?_,
      iff_of_true rfl ⟨h12, not_lt.mp h14⟩,
      iff_of_false (prepend_ne_self _ (by decide)) ?_⟩
    · rintro ⟨h14x, -⟩
      exact h14 h14x
    · intro hle
      exact absurd h12 (not_lt.mpr hle)
  rw [if_neg h12] at h
  obtain rfl : out = _ := (Option.some.inj h).symm
  refine ⟨iff_of_false (Ne.symm (prepend_ne_self _ (by decide))) h18,
    iff_of_false (Ne.symm (prepend_ne_self _ (by decide))) ?_,
    iff_of_false (Ne.symm (prepend_ne_self _ (by decide))) ?_,
    iff_of_true rfl (not_lt.mp h12)⟩
  · rintro ⟨h14x, -⟩
    exact h14 h14x
  · rintro ⟨h12x, -⟩
    exact h12 h12x

/-- Concrete check of claim_C1: the one-line 15pt block renders as a
level-2 heading and its boundary equivalence holds there. -/
theorem claim_C1_witness :
    renderBlock (Block.text wTitleLines) = some "## Title"
  ∧ (("## Title" = "## " ++ blockCombined (blockLines wTitleLines))
      ↔ (14 < blockAvg (blockLines wTitleLines)
          ∧ blockAvg (blockLines wTitleLines) ≤ 18)) :=
  ⟨by with_unfolding_all decide,
   (claim_C1 wTitleLines "## Title" (by with_unfolding_all decide)).2.1⟩

/-- C2: a rendered line is the separator-free concatenation of its spans
formatted outputs, its representative size is the maximum span size
(for a nonempty line of nonnegative sizes, as fonts are); the block keeps
exactly the lines whose stripped text is nonempty, storing stripped text
and representative size; a block with no surviving line emits nothing, and
one with survivors emits the surviving texts joined by a single space,
prefixed according to the average (the unweighted mean `blockAvg`) of the
surviving representative sizes. -/
theorem claim_C2 (lines : List Line) (l : Line) :
    ((renderLine l).1
        = String.join (l.spans.map fun s => spanFormat s.text s.flags))
  ∧ (l.spans ≠ [] → (∀ s ∈ l.spans, 0 ≤ s.size) →
      ((renderLine l).2 ∈ l.spans.map Span.size
        ∧ ∀ s ∈ l.spans, s.size ≤ (renderLine l).2))
  ∧ (blockLines lines
      = lines.filterMap fun l2 =>
          if pyStrip (renderLine l2).1 = "" then none
          else some (pyStrip (renderLine l2).1, (renderLine l2).2))
  ∧ (renderBlock (Block.text lines) = none ↔ blockLines lines = [])
  ∧ (blockLines lines ≠ [] →
      renderBlock (Block.text lines)
        = some ((if 18 < blockAvg (blockLines lines) then "# "
                 else if 14 < blockAvg (blockLines lines) then "## "
                 else if 12 < blockAvg (blockLines lines) then "### "
                 else "")
            ++ String.intercalate " " ((blockLines lines).map Prod.fst))) := by
  refine ⟨?_, ?_, ?_, ?_, ?_⟩
  · simpa [renderLine] using foldl_processSpan_fst l.spans ("", 0)
  · intro hne hpos
    have hsnd : (renderLine l).2 = (l.spans.map Span.size).foldl max 0 := by
      simpa [renderLine] using foldl_processSpan_snd l.spans ("", 0)
    constructor
    · rcases foldl_max_eq_or_mem (l.spans.map Span.size) 0 with h0 | hmem
      · cases hs : l.spans with
        | nil => exact absurd hs hne
        | cons s0 ss =>
          have hm0 : s0.size ∈ l.spans.map Span.size := by
            rw [hs]
            exact List.mem_map_of_mem _ (List.mem_cons_self _ _)
          have hle : s0.size ≤ 0 := by
            have hx := mem_le_foldl_max (l.spans.map Span.size) 0 s0.size hm0
            rwa [h0] at hx
          have hz : s0.size = 0 :=
            le_antisymm hle (hpos s0 (by rw [hs]; exact List.mem_cons_self _ _))
          rw [hsnd, h0, ← hz]
          exact List.mem_map_of_mem _ (List.mem_cons_self _ _)
      · rw [hsnd]
        exact hmem
    · intro s hs
      rw [hsnd]
      exact mem_le_foldl_max _ 0 s.size (List.mem_map_of_mem _ hs)
  · simpa [blockLines] using foldl_processLine lines []
  · rw [renderBlock_text]
    by_cases hemp : blockLines lines = []
    · simp [hemp]
    · have hbt : ¬ ((blockLines lines).isEmpty = true) := by simp [hemp]
      rw [if_neg hbt]
      refine iff_of_false ?_ hemp
      intro hnone
      repeat' split at hnone
      all_goals simp at hnone
  · intro hne
    have hbt : ¬ ((blockLines lines).isEmpty = true) := by simp [hne]
    rw [renderBlock_text, if_neg hbt]
    by_cases h18 : 18 < blockAvg (blockLines lines) <;>
      by_cases h14 : 14 < blockAvg (blockLines lines) <;>
      by_cases h12 : 12 < blockAvg (blockLines lines) <;>
      simp [h18, h14, h12, blockCombined]

/-- Concrete check of claim_C2: the two-span line has nonempty spans of
nonnegative sizes, and its representative size is the maximum span size. -/
theorem claim_C2_witness :
    wLine.spans ≠ []
  ∧ (∀ s ∈ wLine.spans, 0 ≤ s.size)
  ∧ ((renderLine wLine).2 ∈ wLine.spans.map Span.size
      ∧ ∀ s ∈ wLine.spans, s.size ≤ (renderLine wLine).2) :=
  ⟨by decide, by with_unfolding_all decide,
   (claim_C2 [wLine] wLine).2.1 (by decide) (by with_unfolding_all decide)⟩

/-- C9: contrary to the specified resource guarantee, the close call of
src/main.py line 190 is skipped whenever page processing raises: it sits
after the loop with no try/finally or with-block.  Running the conversion
on a successfully opened one-page document whose page content retrieval
raises terminates exceptionally with zero close calls, while the same run
on an intact page closes the document exactly once. -/
theorem claim_C9 :
    (convertRun (Except.ok { pages := [Except.error "page damaged"] })
        false false
      = (RunOutcome.uncaught "page damaged", 0))
  ∧ (convertRun
        (Except.ok { pages := [Except.ok { blocks := [], images := [] }] })
        false false
      = (RunOutcome.ok { markdown := "", images := none }, 1)) :=
  ⟨rfl, rfl⟩

end PdfToMd
